import Mathlib

/-!
Verification of the CXLMemSim retirement-timing / calibration layer.

The definitions below are shallow embeddings of:
* the `Rob::canRetire` body emitted by `generate_rob_patch`
  (src/script/calibrate_memory_latency.py, lines 286-345);
* the trace parser, latency statistics and calibration-parameter
  computation (src/script/calibrate_memory_latency.py);
* the regex-driven patch applier `apply_calibration_to_rob`
  (src/script/apply_calibration.py).

Real-valued quantities (Python floats / C++ doubles) are modelled as
rationals; C++ `static_cast<long>` and Python `int()` on a real value are
modelled as truncation toward zero (`castLong`).
-/

namespace CXLMemSim

/-! ### Basic string machinery shared by several components -/

/-- Substring occurrence on character lists: `charsContain pat s` is true
iff `pat` occurs contiguously inside `s` (the semantics of C++
`std::string::find(pat) != npos` and of the Python `in` operator). -/
def charsContain (pat : List Char) : List Char → Bool
  | [] => pat.isEmpty
  | c :: t => pat.isPrefixOf (c :: t) || charsContain pat t

/-- Substring occurrence on strings. -/
def occursB (pat s : String) : Bool := charsContain pat.data s.data

/-- Truncation toward zero of a rational, the semantics of C++
`static_cast<long>(double)` and of Python `int(float)`. -/
def castLong (q : ℚ) : ℤ := if 0 ≤ q then ⌊q⌋ else ⌈q⌉

/-! ### The retirement engine

Embedding of the `Rob::canRetire` body emitted by `generate_rob_patch`
(src/script/calibrate_memory_latency.py lines 295-339).  The latency
oracle (`controller_->get_access` composed with
`controller_->calculate_latency(allAccess, 80.)`) is an external
collaborator and is passed in as a function of the retire timestamp. -/

/-- One in-flight instruction (`InstructionGroup` in rob.cpp). -/
structure InstructionGroup where
  address : ℤ
  instruction : String
  retireTimestamp : ℤ
  deriving DecidableEq

/-- Engine state for one simulated context. -/
structure RobState where
  cur_latency : ℤ
  currentCycle_ : ℤ
  stallCount_ : ℤ
  stallEventCount_ : ℤ
  deriving DecidableEq

/-- Calibrated constants baked into the patched `canRetire` body.
`instruction_latency_adjustment` is ordered as the generated if-chain
(the insertion order of the Python dict). -/
structure RobParams where
  base_latency_multiplier : ℚ
  min_latency_threshold : ℤ
  instruction_latency_adjustment : List (String × ℚ)
  stall_multiplier : ℚ

/-- The adjustment factor computed by the generated if-chain:
start from 1.0, and every adjustment entry whose key occurs in the
instruction text overwrites the current value (so the last matching
entry wins). -/
def adjFor (adjs : List (String × ℚ)) (text : String) : ℚ :=
  adjs.foldl (fun acc e => if occursB e.1 text then e.2 else acc) 1

/-- The additive contribution of the `instructionLatencyMap` loop: the
first table entry whose key occurs in the instruction text contributes
`static_cast<long>(latency * adjustment)`, then the loop breaks; no
match contributes nothing. -/
def tableContribution (adjs table : List (String × ℚ)) (text : String) : ℤ :=
  match List.find? (fun e => occursB e.1 text) table with
  | none => 0
  | some e => castLong (e.2 * adjFor adjs text)

/-- The clamp step of the charging branch:
`cur_latency = std::max(minThresholdL, static_cast<long>(baseLatency))`
after `baseLatency *= base_latency_multiplier`. -/
def clampedLatency (p : RobParams) (oracle : ℤ → ℚ) (ins : InstructionGroup) : ℤ :=
  max p.min_latency_threshold
    (castLong (oracle ins.retireTimestamp * p.base_latency_multiplier))

/-- Modelled from the spec: the draining branch of `Rob::canRetire`
(`cur_latency != 0`).  The generated patch elides this branch
("rest of the function remains the same") and rob.cpp itself is not part
of the repository, so it is modelled from spec section 4.3: once latency
has been charged, a later call consumes it, resets `cur_latency` to 0 and
returns true, without advancing `currentCycle_` again (the charge already
advanced it in one shot). -/
def drainStep (st : RobState) : Bool × RobState :=
  (true, { st with cur_latency := 0 })

/-- The total latency charged by one pass through the charging branch:
the clamped base latency plus the instruction-class table contribution. -/
def chargedLatency (p : RobParams) (table : List (String × ℚ)) (oracle : ℤ → ℚ)
    (ins : InstructionGroup) : ℤ :=
  clampedLatency p oracle ins
    + tableContribution p.instruction_latency_adjustment table ins.instruction

/-- Embedding of the generated `Rob::canRetire` body.  Returns the
decision together with the updated engine state and the (possibly
mutated) instruction. -/
def canRetire (p : RobParams) (table : List (String × ℚ)) (oracle : ℤ → ℚ)
    (st : RobState) (ins : InstructionGroup) :
    Bool × RobState × InstructionGroup :=
  if ins.address = 0 then
    (true, st, ins)
  else if st.cur_latency = 0 then
    let lat := chargedLatency p table oracle ins
    let stall := st.stallCount_ + castLong ((lat : ℚ) * p.stall_multiplier)
    (false,
      { cur_latency := lat
        currentCycle_ := st.currentCycle_ + lat
        stallCount_ := stall
        stallEventCount_ := st.stallEventCount_ + (if stall % 2 = 0 then 1 else 0) },
      { ins with retireTimestamp := ins.retireTimestamp + lat })
  else
    ((drainStep st).1, (drainStep st).2, ins)

/-- Running the engine over a sequence of head-of-window instructions,
keeping only the engine state. -/
def runEngine (p : RobParams) (table : List (String × ℚ)) (oracle : ℤ → ℚ)
    (st : RobState) (inss : List InstructionGroup) : RobState :=
  inss.foldl (fun s i => (canRetire p table oracle s i).2.1) st

/-! ### Memory accesses and latency statistics

Embedding of `MemoryAccess`, `LatencyAnalyzer.calculate_latency_statistics`
(mean and min only — the other statistics are not consumed by
`calculate_calibration_params`), `analyze_instruction_types` and
`calculate_calibration_params` from src/script/calibrate_memory_latency.py. -/

/-- `MemoryAccess` dataclass (calibrate_memory_latency.py lines 33-46). -/
structure MemoryAccess where
  fetch_timestamp : ℤ
  retire_timestamp : ℤ
  address : ℤ
  instruction : String
  cycle_count : ℤ
  mem_type : String
  deriving DecidableEq

/-- The `latency` property: retire timestamp minus fetch timestamp. -/
def MemoryAccess.latency (a : MemoryAccess) : ℤ :=
  a.retire_timestamp - a.fetch_timestamp

/-- `np.mean` over the latencies, with the empty-list case defaulted to 0
as in `calculate_latency_statistics`. -/
def meanLatency (l : List MemoryAccess) : ℚ :=
  if l.length = 0 then 0
  else (l.map fun a => (a.latency : ℚ)).sum / l.length

/-- `np.min` over the latencies, with the empty-list case defaulted to 0
as in `calculate_latency_statistics`. -/
def minLatency (l : List MemoryAccess) : ℤ :=
  match l.map MemoryAccess.latency with
  | [] => 0
  | x :: xs => xs.foldl min x

/-- Python `str.split()` (split on whitespace runs, dropping empties). -/
def pySplit (s : String) : List String :=
  (s.split Char.isWhitespace).filter (· ≠ "")

/-- The opcode classification of `analyze_instruction_types`: the first
whitespace-separated token, lowercased, is grouped into `"load"`,
`"store"` or `"other"` by substring tests; an empty instruction text is
skipped entirely. -/
def classify (a : MemoryAccess) : Option String :=
  match pySplit a.instruction with
  | [] => none
  | t :: _ =>
    let opcode := t.toLower
    if occursB "ld" opcode || occursB "mov_r_m" opcode then some "load"
    else if occursB "st" opcode || occursB "mov_m_r" opcode then some "store"
    else some "other"

/-- The latencies collected for one instruction class. -/
def classLatencies (l : List MemoryAccess) (c : String) : List ℤ :=
  (l.filter fun a => classify a = some c).map MemoryAccess.latency

/-- Mean latency of one instruction class (0 when the class is empty). -/
def classMean (l : List MemoryAccess) (c : String) : ℚ :=
  match classLatencies l c with
  | [] => 0
  | x :: xs => ((x :: xs).map fun z => (z : ℚ)).sum / (x :: xs).length

/-- The instruction classes in order of first appearance — the insertion
order of the `defaultdict` in `analyze_instruction_types`, which is the
iteration order of the subsequent `for instr_type in gem5_instr_stats`
loop. -/
def classOrder (l : List MemoryAccess) : List String :=
  l.foldl
    (fun acc a =>
      match classify a with
      | none => acc
      | some c => if c ∈ acc then acc else acc ++ [c])
    []

/-- `CalibrationParams` dataclass (calibrate_memory_latency.py lines
48-59) with its field defaults; `None` for the adjustment map is replaced
by the empty map in `__post_init__`. -/
structure CalibrationParams where
  base_latency_multiplier : ℚ
  congestion_factor : ℚ
  instruction_latency_adjustment : List (String × ℚ)
  min_latency_threshold : ℤ
  stall_multiplier : ℚ
  deriving DecidableEq

/-- The default-constructed `CalibrationParams()`. -/
def defaultCalibrationParams : CalibrationParams :=
  { base_latency_multiplier := 1
    congestion_factor := 1
    instruction_latency_adjustment := []
    min_latency_threshold := 10
    stall_multiplier := 1 }

/-- The per-class adjustment loop of `calculate_calibration_params`:
for each class seen in the gem5 trace (in insertion order), if the class
is also present in the CXLMemSim trace and its CXLMemSim mean is
positive, record `gem5_mean / cxlmemsim_mean * target_ratio`. -/
def instr_adjustments (gem5 cxl : List MemoryAccess) (target_ratio : ℚ) :
    List (String × ℚ) :=
  (classOrder gem5).filterMap fun ty =>
    if ty ∈ classOrder cxl then
      let cm := classMean cxl ty
      if 0 < cm then some (ty, classMean gem5 ty / cm * target_ratio) else none
    else none

/-- `LatencyAnalyzer.calculate_calibration_params`
(calibrate_memory_latency.py lines 185-243): if either trace has zero
mean latency, return the default parameters; otherwise derive the
adjustment factor `target_ratio / (cxl_mean / gem5_mean)` and build the
parameter set. -/
def calculate_calibration_params (gem5 cxl : List MemoryAccess) (target_ratio : ℚ) :
    CalibrationParams :=
  if meanLatency gem5 = 0 ∨ meanLatency cxl = 0 then defaultCalibrationParams
  else
    let current_ratio := meanLatency cxl / meanLatency gem5
    let adjustment_factor := target_ratio / current_ratio
    { base_latency_multiplier := adjustment_factor
      congestion_factor := 1
      instruction_latency_adjustment := instr_adjustments gem5 cxl target_ratio
      min_latency_threshold := max 10 (castLong ((minLatency gem5 : ℚ) * (8/10)))
      stall_multiplier := adjustment_factor }

/-! ### The O3PipeView trace parser

Embedding of `TraceParser.parse_trace_file`
(calibrate_memory_latency.py lines 64-126).  Python's `int(...)` raising
`ValueError` aborts the whole parse; this is modelled by an `Option`
result that is `none` when any attempted integer conversion fails. -/

/-- Python `int(s)` on a decimal string, as far as the parser needs it
(optional sign, digits; surrounding whitespace tolerated). -/
def pyInt? (s : String) : Option ℤ := s.trim.toInt?

/-- One hexadecimal digit. -/
def hexDigitVal (c : Char) : Option ℕ :=
  if c.isDigit then some (c.toNat - 48)
  else if 'a' ≤ c ∧ c ≤ 'f' then some (c.toNat - 87)
  else if 'A' ≤ c ∧ c ≤ 'F' then some (c.toNat - 55)
  else none

/-- Fold hexadecimal digits left to right. -/
def hexNat? : List Char → Option ℕ
  | [] => none
  | [c] => hexDigitVal c
  | c :: t => do
    let d ← hexDigitVal c
    let r ← hexNat? t
    pure (d * 16 ^ t.length + r)

/-- Python `int(s, 16)` on a `0x`-prefixed string. -/
def pyHex? (s : String) : Option ℤ :=
  if s.startsWith "0x" then (hexNat? (s.data.drop 2)).map fun n => (n : ℤ)
  else none

/-- The address conversion of the fetch branch: a `0x` prefix selects
base-16 conversion, otherwise decimal (the `if address_str != '0x0'`
alternative in the source is unreachable in its branch and therefore has
no effect). -/
def parseAddr (s : String) : Option ℤ :=
  if s.startsWith "0x" then pyHex? s else pyInt? s

/-- Python `line.split(':', 6)`: at most 7 pieces, the tail unsplit. -/
def splitMax7 (s : String) : List String :=
  let ps := s.splitOn ":"
  if ps.length ≤ 7 then ps else ps.take 6 ++ [String.intercalate ":" (ps.drop 6)]

/-- The pending fetch record held in `current_instruction`. -/
structure PendingFetch where
  fetch_timestamp : ℤ
  address : ℤ
  instruction : String
  cycle_count : ℤ
  deriving DecidableEq

/-- The parser loop of `parse_trace_file`, processing one line at a time
with the pending fetch threaded through.  A fetch line with enough parts
replaces the pending fetch; a malformed fetch line leaves it unchanged; a
retire line with a pending fetch always clears it, and emits a record
exactly when it is well formed and the pending address is non-zero. -/
def parseAux : Option PendingFetch → List String → Option (List MemoryAccess)
  | _, [] => some []
  | pend, l :: ls =>
    let line := l.trim
    if line.startsWith "O3PipeView:fetch:" then
      let parts := splitMax7 line
      if parts.length ≥ 7 then
        match pyInt? (parts.getD 2 ""), parseAddr (parts.getD 3 ""),
            pyInt? (parts.getD 5 "") with
        | some ft, some a, some cc =>
          parseAux (some ⟨ft, a, (parts.getD 6 "").trim, cc⟩) ls
        | _, _, _ => none
      else parseAux pend ls
    else
      match pend with
      | some pd =>
        if line.startsWith "O3PipeView:retire:" then
          let parts := line.splitOn ":"
          if parts.length ≥ 4 then
            match pyInt? (parts.getD 2 "") with
            | some rt =>
              if pd.address ≠ 0 then
                (parseAux none ls).map fun rest =>
                  ⟨pd.fetch_timestamp, rt, pd.address, pd.instruction,
                    pd.cycle_count, parts.getD 3 ""⟩ :: rest
              else parseAux none ls
            | none => none
          else parseAux none ls
        else parseAux (some pd) ls
      | none => parseAux none ls

/-- `TraceParser.parse_trace_file` on the list of input lines. -/
def parse_trace_file (lines : List String) : Option (List MemoryAccess) :=
  parseAux none lines

/-- The amended pairing count: walking the lines with only the pending
fetch's address threaded through, a record is counted exactly when a
well-formed retire line consumes a pending fetch whose address is
non-zero (a later fetch line replaces the pending fetch; a malformed
retire line clears it without producing anything). -/
def pairCountAux : Option ℤ → List String → ℕ
  | _, [] => 0
  | pend, l :: ls =>
    let line := l.trim
    if line.startsWith "O3PipeView:fetch:" then
      let parts := splitMax7 line
      if parts.length ≥ 7 then
        match pyInt? (parts.getD 2 ""), parseAddr (parts.getD 3 ""),
            pyInt? (parts.getD 5 "") with
        | some _, some a, some _ => pairCountAux (some a) ls
        | _, _, _ => 0
      else pairCountAux pend ls
    else
      match pend with
      | some pa =>
        if line.startsWith "O3PipeView:retire:" then
          let parts := line.splitOn ":"
          if parts.length ≥ 4 then
            match pyInt? (parts.getD 2 "") with
            | some _ => (if pa ≠ 0 then 1 else 0) + pairCountAux none ls
            | none => 0
          else pairCountAux none ls
        else pairCountAux (some pa) ls
      | none => pairCountAux none ls

/-- A well-formed fetch line describing a memory access, read off the
claim's wording: fetch-prefixed, seven parts, parsable fields, non-zero
address. -/
def isMemFetchLine (l : String) : Bool :=
  let line := l.trim
  line.startsWith "O3PipeView:fetch:" &&
    (let parts := splitMax7 line;
      parts.length ≥ 7 &&
        (pyInt? (parts.getD 2 "")).isSome &&
        (pyInt? (parts.getD 5 "")).isSome &&
        match parseAddr (parts.getD 3 "") with
        | some a => a ≠ 0
        | none => false)

/-- A well-formed retire line, read off the claim's trace format. -/
def isRetireLine (l : String) : Bool :=
  let line := l.trim
  line.startsWith "O3PipeView:retire:" &&
    (let parts := line.splitOn ":";
      parts.length ≥ 4 && (pyInt? (parts.getD 2 "")).isSome)

/-- The record count the claim predicts: one per memory fetch line that
is followed (anywhere later in program order) by a retire line. -/
def claimPairedCount : List String → ℕ
  | [] => 0
  | l :: ls =>
    (if isMemFetchLine l ∧ ls.any isRetireLine then 1 else 0) + claimPairedCount ls

/-! ### The calibration patch applier

Embedding of `apply_calibration_to_rob` (src/script/apply_calibration.py
lines 20-105) as the pure transformation it performs on the rob.cpp file
content (reading, backup writing and logging are I/O around it).  Each of
the four regex substitutions is modelled by a dedicated matcher
implementing exactly that pattern (the patterns are concatenations of
literals, `\s*`, `\d+` and lazy gap wildcards, so maximal-munch matching
is exact), and applied to every non-overlapping occurrence, left to
right, exactly when `re.search` finds the pattern — the guard structure
of the source.  The replacement template `f'\\1{min_threshold}\\3'` of
the first substitution is parsed by Python's `re` module with its octal /
group-reference rules, which `sub1Repl` reproduces; a template whose
group reference is out of range raises `re.error`, modelled by a `none`
result. -/

/-- The JSON configuration dictionary: each key the source reads via
`config.get(key, default)` may be absent. -/
structure CalibrationConfig where
  base_latency_multiplier : Option ℚ
  congestion_factor : Option ℚ
  instruction_latency_adjustment : Option (List (String × ℚ))
  min_latency_threshold : Option ℤ
  stall_multiplier : Option ℚ
  deriving DecidableEq

/-- `config.get('base_latency_multiplier', 1.0)`. -/
def cfgBaseMultiplier (c : CalibrationConfig) : ℚ :=
  c.base_latency_multiplier.getD 1

/-- `config.get('min_latency_threshold', 10)`. -/
def cfgMinThreshold (c : CalibrationConfig) : ℤ :=
  c.min_latency_threshold.getD 10

/-- `config.get('stall_multiplier', 1.0)`. -/
def cfgStallMultiplier (c : CalibrationConfig) : ℚ :=
  c.stall_multiplier.getD 1

/-- `config.get('instruction_latency_adjustment', {})`. -/
def cfgInstrAdjustments (c : CalibrationConfig) : List (String × ℚ) :=
  c.instruction_latency_adjustment.getD []

/-- Zero-pad a natural number to six digits. -/
def pad6 (n : ℕ) : String :=
  let s := toString n
  String.mk (List.replicate (6 - s.length) '0') ++ s

/-- Round to the nearest integer, ties to even (the rounding of Python's
fixed-point float formatting, on exact rational inputs). -/
def roundHalfEven (x : ℚ) : ℤ :=
  if x - ⌊x⌋ < 1/2 then ⌊x⌋
  else if 1/2 < x - ⌊x⌋ then ⌊x⌋ + 1
  else if ⌊x⌋ % 2 = 0 then ⌊x⌋ else ⌊x⌋ + 1

/-- Six-decimal formatting of a nonnegative rational. -/
def fmt6Abs (q : ℚ) : String :=
  let n := (roundHalfEven (q * 1000000)).toNat
  toString (n / 1000000) ++ "." ++ pad6 (n % 1000000)

/-- Python `f"{x:.6f}"`. -/
def fmt6 (q : ℚ) : String :=
  if q < 0 then "-" ++ fmt6Abs (-q) else fmt6Abs q

/-- Drop a literal prefix, or fail. -/
def dropLit (lit s : List Char) : Option (List Char) :=
  if lit.isPrefixOf s then some (s.drop lit.length) else none

/-- Leftmost occurrence of a literal: the characters before it and the
characters after it (the semantics of a lazy gap followed by the
literal). -/
def findLit (lit : List Char) : List Char → Option (List Char × List Char)
  | [] => if lit.isEmpty then some ([], []) else none
  | c :: t =>
    if lit.isPrefixOf (c :: t) then some ([], (c :: t).drop lit.length)
    else (findLit lit t).map fun p => (c :: p.1, p.2)

/-- `re.search`: does the matcher succeed at any position? -/
def searchB (m : List Char → Option (List Char × List Char)) : List Char → Bool
  | [] => (m []).isSome
  | c :: t => (m (c :: t)).isSome || searchB m t

/-- `re.sub` over all non-overlapping occurrences, scanning left to
right; a successful match yields the replacement and the rest of the
input after the matched span.  Fuelled by the input length (every matcher
used here consumes at least one character). -/
def subAllAux (m : List Char → Option (List Char × List Char)) :
    ℕ → List Char → List Char
  | 0, s => s
  | _ + 1, [] => []
  | n + 1, c :: t =>
    match m (c :: t) with
    | some (rep, rest) => rep ++ subAllAux m n rest
    | none => c :: subAllAux m n t

/-- `re.sub` on the whole input. -/
def subAll (m : List Char → Option (List Char × List Char))
    (s : List Char) : List Char :=
  subAllAux m s.length s

/-- Pattern 1, fixed head:
`(cur_latency = std::max\(\s*)(\d+)(L,\s*static_cast<long>\(baseLatency\)\);)`. -/
def lit1head : List Char := "cur_latency = std::max(".data

/-- Pattern 1, fixed tail. -/
def lit1tail : List Char := "static_cast<long>(baseLatency));".data

/-- An octal digit. -/
def isOctDigit (c : Char) : Bool := '0' ≤ c && c ≤ '7'

/-- Whether the replacement template `\1` ++ `str(T)` ++ `\3` is accepted
by Python's `re` template parser.  After `\1`, further digits are
absorbed: a negative `T` contributes a leading `-` that ends the group
reference (valid); a single digit yields group `1d` (out of range, an
error); two leading octal digits turn `\1dd` into an octal character
escape (valid, and group 1 is lost); any other digits yield an
out-of-range group reference. -/
def sub1TemplateValid (T : ℤ) : Bool :=
  if T < 0 then true
  else
    match (toString T).data with
    | d1 :: d2 :: _ => isOctDigit d1 && isOctDigit d2
    | _ => false

/-- The expansion of the template `\1` ++ `str(T)` ++ `\3` on groups
`g1`, `g3` (only meaningful when `sub1TemplateValid T`): for negative `T`
it is `g1 ++ str(T) ++ g3`; for `T ≥ 10` with two leading octal digits,
`\1d₁d₂` denotes the character with code `0o1d₁d₂` and group 1 is
dropped, followed by the remaining digits and `g3`. -/
def sub1Repl (T : ℤ) (g1 g3 : List Char) : List Char :=
  if T < 0 then g1 ++ (toString T).data ++ g3
  else
    match (toString T).data with
    | d1 :: d2 :: rest =>
      Char.ofNat (64 + 8 * (d1.toNat - 48) + (d2.toNat - 48)) :: rest ++ g3
    | _ => g3

/-- Matcher for pattern 1 at the current position, producing the
template expansion for its match. -/
def matchAt1 (T : ℤ) (s : List Char) : Option (List Char × List Char) :=
  match dropLit lit1head s with
  | none => none
  | some r1 =>
    let (w1, r2) := r1.span Char.isWhitespace
    let (ds, r3) := r2.span Char.isDigit
    if ds.isEmpty then none
    else
      match dropLit "L,".data r3 with
      | none => none
      | some r4 =>
        let (w2, r5) := r4.span Char.isWhitespace
        match dropLit lit1tail r5 with
        | none => none
        | some r6 =>
          some (sub1Repl T (lit1head ++ w1) ("L,".data ++ w2 ++ lit1tail), r6)

/-- Substitution 1 (minimum latency threshold); `none` models the
`re.error` raised for a template with an out-of-range group reference,
which can only surface when the pattern was found. -/
def step1 (T : ℤ) (s : List Char) : Option (List Char) :=
  if searchB (matchAt1 T) s then
    if sub1TemplateValid T then some (subAll (matchAt1 T) s) else none
  else some s

/-- Pattern 2 (a pure literal):
`(double baseLatency = controller_->calculate_latency\(allAccess, 80\.\);)`. -/
def lit2 : List Char :=
  "double baseLatency = controller_->calculate_latency(allAccess, 80.);".data

/-- Replacement for pattern 2: keep the line and append the multiplier
line. -/
def repl2 (m : ℚ) : List Char :=
  lit2 ++ ("\n        baseLatency *= " ++ fmt6 m ++ "; // Calibrated multiplier").data

/-- Matcher for pattern 2. -/
def matchAt2 (m : ℚ) (s : List Char) : Option (List Char × List Char) :=
  (dropLit lit2 s).map fun r => (repl2 m, r)

/-- Substitution 2 (base latency multiplier). -/
def step2 (m : ℚ) (s : List Char) : List Char :=
  if searchB (matchAt2 m) s then subAll (matchAt2 m) s else s

/-- Pattern 3 (a pure literal): `(stallCount_ \+= )(cur_latency);`. -/
def lit3 : List Char := "stallCount_ += cur_latency;".data

/-- Replacement for pattern 3. -/
def repl3 (sm : ℚ) : List Char :=
  ("stallCount_ += static_cast<long>(cur_latency * " ++ fmt6 sm
    ++ "); // Calibrated stall multiplier").data

/-- Matcher for pattern 3. -/
def matchAt3 (sm : ℚ) (s : List Char) : Option (List Char × List Char) :=
  (dropLit lit3 s).map fun r => (repl3 sm, r)

/-- Substitution 3 (stall multiplier). -/
def step3 (sm : ℚ) (s : List Char) : List Char :=
  if searchB (matchAt3 sm) s then subAll (matchAt3 sm) s else s

/-- Pattern 4, fixed head:
`for \(const auto &\[instr, latency\] : instructionLatencyMap\) \{`. -/
def lit4head : List Char :=
  "for (const auto &[instr, latency] : instructionLatencyMap) \x7b".data

/-- Pattern 4, middle literal (group 2): `cur_latency \+= latency;`. -/
def lit4mid : List Char := "cur_latency += latency;".data

/-- The generated adjustment chain replacing group 2. -/
def adjustmentCode (adjs : List (String × ℚ)) : List Char :=
  "double adjustment = 1.0;\n".data
    ++ (adjs.map fun e =>
        ("                if (ins.instruction.find(\"" ++ e.1
          ++ "\") != std::string::npos) \x7b adjustment = " ++ fmt6 e.2
          ++ "; \x7d\n").data).flatten
    ++ "                cur_latency += static_cast<long>(latency * adjustment);".data

/-- Matcher for pattern 4: the head literal, a lazy gap up to the middle
literal, and a lazy gap up to the next closing brace. -/
def matchAt4 (adjs : List (String × ℚ)) (s : List Char) :
    Option (List Char × List Char) :=
  match dropLit lit4head s with
  | none => none
  | some r1 =>
    match findLit lit4mid r1 with
    | none => none
    | some (mid1, r2) =>
      match findLit [Char.ofNat 125] r2 with
      | none => none
      | some (mid2, r3) =>
        some (lit4head ++ mid1 ++ adjustmentCode adjs ++ mid2 ++ [Char.ofNat 125], r3)

/-- Substitution 4 (instruction-specific adjustments), guarded in the
source by `if instr_adjustments:`. -/
def step4 (adjs : List (String × ℚ)) (s : List Char) : List Char :=
  if adjs.isEmpty then s
  else if searchB (matchAt4 adjs) s then subAll (matchAt4 adjs) s else s

/-- `apply_calibration_to_rob` as the transformation of the rob.cpp
content: the four guarded substitutions in source order. -/
def apply_calibration_to_rob (cfg : CalibrationConfig) (content : String) :
    Option String :=
  match step1 (cfgMinThreshold cfg) content.data with
  | none => none
  | some s1 =>
    some (String.mk (step4 (cfgInstrAdjustments cfg)
      (step3 (cfgStallMultiplier cfg) (step2 (cfgBaseMultiplier cfg) s1))))

/-! ### Helper lemmas about truncation and the engine -/

theorem castLong_eq_floor {q : ℚ} (h : 0 ≤ q) : castLong q = ⌊q⌋ := by
  simp [castLong, h]

theorem castLong_nonneg {q : ℚ} (h : 0 ≤ q) : 0 ≤ castLong q := by
  rw [castLong_eq_floor h]
  exact Int.floor_nonneg.mpr h

/-- Clamping with a nonnegative lower bound ignores the difference between
truncation toward zero and `Int.floor`. -/
theorem max_castLong_eq_max_floor {T : ℤ} (hT : 0 ≤ T) (q : ℚ) :
    max T (castLong q) = max T ⌊q⌋ := by
  by_cases h : 0 ≤ q
  · rw [castLong_eq_floor h]
  · push_neg at h
    have h1 : castLong q ≤ 0 := by
      simp only [castLong, not_le.mpr h, if_false]
      exact Int.ceil_le.mpr (by push_cast; exact h.le)
    have h2 : ⌊q⌋ ≤ 0 := Int.floor_nonpos h.le
    rw [max_eq_left (h1.trans hT), max_eq_left (h2.trans hT)]

theorem foldl_adj_nonneg (text : String) (adjs : List (String × ℚ)) (q : ℚ)
    (hq : 0 ≤ q) (h : ∀ e ∈ adjs, (0 : ℚ) ≤ e.2) :
    0 ≤ adjs.foldl (fun acc e => if occursB e.1 text then e.2 else acc) q := by
  induction adjs generalizing q with
  | nil => exact hq
  | cons a l ih =>
    simp only [List.foldl_cons]
    refine ih _ ?_ fun e he => h e (List.mem_cons_of_mem _ he)
    by_cases hc : occursB a.1 text
    · simpa [hc] using h a (List.mem_cons_self a l)
    · simpa [hc] using hq

theorem adjFor_nonneg (adjs : List (String × ℚ)) (text : String)
    (h : ∀ e ∈ adjs, (0 : ℚ) ≤ e.2) : 0 ≤ adjFor adjs text :=
  foldl_adj_nonneg text adjs 1 (by norm_num) h

theorem tableContribution_nonneg (adjs table : List (String × ℚ)) (text : String)
    (htab : ∀ e ∈ table, (0 : ℚ) ≤ e.2) (hadj : ∀ e ∈ adjs, (0 : ℚ) ≤ e.2) :
    0 ≤ tableContribution adjs table text := by
  unfold tableContribution
  cases hf : List.find? (fun e => occursB e.1 text) table with
  | none => exact le_refl 0
  | some e =>
    exact castLong_nonneg
      (mul_nonneg (htab e (List.mem_of_find?_eq_some hf)) (adjFor_nonneg adjs text hadj))

theorem chargedLatency_ge (p : RobParams) (table : List (String × ℚ)) (oracle : ℤ → ℚ)
    (ins : InstructionGroup)
    (htab : ∀ e ∈ table, (0 : ℚ) ≤ e.2)
    (hadj : ∀ e ∈ p.instruction_latency_adjustment, (0 : ℚ) ≤ e.2) :
    p.min_latency_threshold ≤ chargedLatency p table oracle ins := by
  unfold chargedLatency
  calc p.min_latency_threshold ≤ clampedLatency p oracle ins := le_max_left _ _
    _ ≤ _ := le_add_of_nonneg_right
        (tableContribution_nonneg _ table ins.instruction htab hadj)

/-- The state after a charging step, written out. -/
theorem canRetire_charging (p : RobParams) (table : List (String × ℚ)) (oracle : ℤ → ℚ)
    (st : RobState) (ins : InstructionGroup)
    (haddr : ¬ ins.address = 0) (hcl : st.cur_latency = 0) :
    canRetire p table oracle st ins =
      (false,
        { cur_latency := chargedLatency p table oracle ins
          currentCycle_ := st.currentCycle_ + chargedLatency p table oracle ins
          stallCount_ := st.stallCount_ +
            castLong ((chargedLatency p table oracle ins : ℚ) * p.stall_multiplier)
          stallEventCount_ := st.stallEventCount_ +
            (if (st.stallCount_ +
                castLong ((chargedLatency p table oracle ins : ℚ) * p.stall_multiplier)) % 2 = 0
              then 1 else 0) },
        { ins with retireTimestamp := ins.retireTimestamp + chargedLatency p table oracle ins }) := by
  simp [canRetire, haddr, hcl]

/-! ### Claim C1: the latency floor -/

/-- C1: when `canRetire` processes a memory instruction (`address ≠ 0`)
while `cur_latency = 0`, the engine scales the oracle latency by
`base_latency_multiplier` and clamps it to
`max min_latency_threshold ⌊baseLatency⌋`; consequently the charged
`cur_latency` is never below `min_latency_threshold`.  The clamp is
stated for a nonnegative threshold (every threshold the calibration layer
produces is at least 10), and the floor invariant also needs the
instruction-class table contributions to be nonnegative. -/
theorem latency_floor (p : RobParams) (table : List (String × ℚ)) (oracle : ℤ → ℚ)
    (st : RobState) (ins : InstructionGroup)
    (hT : 0 ≤ p.min_latency_threshold)
    (htab : ∀ e ∈ table, (0 : ℚ) ≤ e.2)
    (hadj : ∀ e ∈ p.instruction_latency_adjustment, (0 : ℚ) ≤ e.2)
    (haddr : ins.address ≠ 0) (hcl : st.cur_latency = 0) :
    clampedLatency p oracle ins
        = max p.min_latency_threshold ⌊oracle ins.retireTimestamp * p.base_latency_multiplier⌋
      ∧ p.min_latency_threshold ≤ ((canRetire p table oracle st ins).2.1).cur_latency := by
  refine ⟨max_castLong_eq_max_floor hT _, ?_⟩
  rw [canRetire_charging p table oracle st ins haddr hcl]
  exact chargedLatency_ge p table oracle ins htab hadj

/-- Witness for C1 at a concrete negative oracle output: the clamp lifts
`-5/2` to the threshold 10. -/
theorem latency_floor_witness :
    ((0 : ℤ) ≤ 10 ∧ (⟨5, "x", 0⟩ : InstructionGroup).address ≠ 0)
    ∧ (clampedLatency ⟨1, 10, [], 1⟩ (fun _ => (-5/2 : ℚ)) ⟨5, "x", 0⟩
          = max 10 ⌊(-5/2 : ℚ) * 1⌋
        ∧ (10 : ℤ) ≤ ((canRetire ⟨1, 10, [], 1⟩ [] (fun _ => (-5/2 : ℚ))
            ⟨0, 0, 0, 0⟩ ⟨5, "x", 0⟩).2.1).cur_latency)
    ∧ ((canRetire ⟨1, 10, [], 1⟩ [] (fun _ => (-5/2 : ℚ))
          ⟨0, 0, 0, 0⟩ ⟨5, "x", 0⟩).2.1).cur_latency = 10 :=
  ⟨⟨by decide, by decide⟩,
    latency_floor ⟨1, 10, [], 1⟩ [] (fun _ => (-5/2 : ℚ)) ⟨0, 0, 0, 0⟩ ⟨5, "x", 0⟩
      (by decide) (by simp) (by simp) (by decide) rfl,
    by with_unfolding_all decide⟩

/-! ### Claim C2: first-match-only lookup and the adjustment chain -/

/-- C2 counterexample: with table `[("ld", 5), ("st", 3)]` and adjustment
map `[("ld", 2), ("st", 4)]`, instruction text `"ld_st"` matches both
classes; the first class `"ld"` is the one charged, but the generated
adjustment if-chain scans the whole map against the text, so the LAST
matching adjustment key wins: the contribution is `5 * 4 = 20`
(total `10 + 20 = 30`), not `5 * 2 = 10` as the claim's per-class
override predicts, and changing the non-first class `"st"`'s factor from
4 to 9 changes the result to `10 + 45 = 55`. -/
theorem first_match_cex :
    ((canRetire ⟨1, 10, [("ld", 2), ("st", 4)], 1⟩ [("ld", 5), ("st", 3)]
        (fun _ => 0) ⟨0, 0, 0, 0⟩ ⟨5, "ld_st", 0⟩).2.1).cur_latency = 30
    ∧ ((canRetire ⟨1, 10, [("ld", 2), ("st", 9)], 1⟩ [("ld", 5), ("st", 3)]
        (fun _ => 0) ⟨0, 0, 0, 0⟩ ⟨5, "ld_st", 0⟩).2.1).cur_latency = 55
    ∧ (30 : ℤ) ≠ 55 ∧ (30 : ℤ) ≠ 10 + castLong ((5 : ℚ) * 2) := by
  refine ⟨?_, ?_, ?_, ?_⟩ <;> with_unfolding_all decide

/-- C2 amended: only the first matching class of the latency table
contributes (entries after the first match are irrelevant), but the
multiplicative adjustment applied to it is determined by scanning the
whole adjustment map against the instruction text — the last matching
adjustment entry wins, defaulting to 1.0 when none matches — so changing
the adjustment factor of a non-first matching class can change the
result. -/
theorem first_match_adjustment (tableA tableB adjs : List (String × ℚ)) (text : String) :
    (List.find? (fun e => occursB e.1 text) tableA
        = List.find? (fun e => occursB e.1 text) tableB →
      tableContribution adjs tableA text = tableContribution adjs tableB text)
    ∧ ((∀ e ∈ adjs, occursB e.1 text = false) → adjFor adjs text = 1)
    ∧ (∀ k v, adjFor (adjs ++ [(k, v)]) text
        = if occursB k text then v else adjFor adjs text) := by
  refine ⟨fun h => ?_, fun h => ?_, fun k v => ?_⟩
  · unfold tableContribution
    rw [h]
  · unfold adjFor
    induction adjs with
    | nil => rfl
    | cons a l ih =>
      simp only [List.foldl_cons, h a (List.mem_cons_self a l)]
      exact ih fun e he => h e (List.mem_cons_of_mem _ he)
  · simp [adjFor, List.foldl_append]

/-- Witness for C2's amended statement on concrete lists. -/
theorem first_match_adjustment_witness :
    tableContribution [("ld", 2)] [("ld", 5)] "ld_x"
        = tableContribution [("ld", 2)] [("ld", 5), ("st", 3)] "ld_x"
    ∧ adjFor [("zz", 7)] "ld_x" = 1
    ∧ adjFor ([("ld", 2)] ++ [("st", 4)]) "ld_x"
        = if occursB "st" "ld_x" then 4 else adjFor [("ld", 2)] "ld_x" :=
  ⟨(first_match_adjustment [("ld", 5)] [("ld", 5), ("st", 3)] [("ld", 2)] "ld_x").1
      (by with_unfolding_all decide),
    (first_match_adjustment [] [] [("zz", 7)] "ld_x").2.1 (by with_unfolding_all decide),
    (first_match_adjustment [] [] [("ld", 2)] "ld_x").2.2 "st" 4⟩

/-! ### Claim C3: stall accounting -/

/-- C3: a latency-charging step adds exactly
`⌊cur_latency * stall_multiplier⌋` to `stallCount_`, and increments
`stallEventCount_` by 1 exactly when the resulting `stallCount_` is even.
Nonnegativity hypotheses make the C++ `static_cast<long>` coincide with
the claim's floor. -/
theorem stall_accounting (p : RobParams) (table : List (String × ℚ)) (oracle : ℤ → ℚ)
    (st : RobState) (ins : InstructionGroup)
    (hT : 0 ≤ p.min_latency_threshold)
    (htab : ∀ e ∈ table, (0 : ℚ) ≤ e.2)
    (hadj : ∀ e ∈ p.instruction_latency_adjustment, (0 : ℚ) ≤ e.2)
    (hS : 0 ≤ p.stall_multiplier)
    (haddr : ins.address ≠ 0) (hcl : st.cur_latency = 0) :
    ((canRetire p table oracle st ins).2.1).stallCount_
        = st.stallCount_ +
            ⌊(((canRetire p table oracle st ins).2.1).cur_latency : ℚ) * p.stall_multiplier⌋
      ∧ ((canRetire p table oracle st ins).2.1).stallEventCount_
        = st.stallEventCount_ +
            (if ((canRetire p table oracle st ins).2.1).stallCount_ % 2 = 0 then 1 else 0) := by
  have hL : (0 : ℚ) ≤ (chargedLatency p table oracle ins : ℚ) := by
    exact_mod_cast hT.trans (chargedLatency_ge p table oracle ins htab hadj)
  rw [canRetire_charging p table oracle st ins haddr hcl]
  exact ⟨by rw [castLong_eq_floor (mul_nonneg hL hS)], rfl⟩

/-- Witness for C3 reproducing the spec's example:
`stall_multiplier = 1/2` and a charged latency of 20 add 10 stall cycles,
and the resulting even `stallCount_` bumps `stallEventCount_`. -/
theorem stall_accounting_witness :
    ((0 : ℚ) ≤ 1/2 ∧ (⟨7, "x", 0⟩ : InstructionGroup).address ≠ 0)
    ∧ (((canRetire ⟨1, 20, [], 1/2⟩ [] (fun _ => 0) ⟨0, 0, 0, 0⟩ ⟨7, "x", 0⟩).2.1).stallCount_
          = 0 + ⌊(((canRetire ⟨1, 20, [], 1/2⟩ [] (fun _ => 0)
              ⟨0, 0, 0, 0⟩ ⟨7, "x", 0⟩).2.1).cur_latency : ℚ) * (1/2)⌋
        ∧ ((canRetire ⟨1, 20, [], 1/2⟩ [] (fun _ => 0) ⟨0, 0, 0, 0⟩ ⟨7, "x", 0⟩).2.1).stallEventCount_
          = 0 + (if ((canRetire ⟨1, 20, [], 1/2⟩ [] (fun _ => 0)
              ⟨0, 0, 0, 0⟩ ⟨7, "x", 0⟩).2.1).stallCount_ % 2 = 0 then 1 else 0))
    ∧ ((canRetire ⟨1, 20, [], 1/2⟩ [] (fun _ => 0) ⟨0, 0, 0, 0⟩ ⟨7, "x", 0⟩).2.1).stallCount_ = 10
    ∧ ((canRetire ⟨1, 20, [], 1/2⟩ [] (fun _ => 0) ⟨0, 0, 0, 0⟩ ⟨7, "x", 0⟩).2.1).stallEventCount_ = 1 :=
  ⟨⟨by with_unfolding_all decide, by decide⟩,
    stall_accounting ⟨1, 20, [], 1/2⟩ [] (fun _ => 0) ⟨0, 0, 0, 0⟩ ⟨7, "x", 0⟩
      (by decide) (by simp) (by simp) (by with_unfolding_all decide) (by decide) rfl,
    by with_unfolding_all decide, by with_unfolding_all decide⟩

/-! ### Claim C4: monotonic time -/

/-- C4: a charging call advances `currentCycle_` and the instruction's
`retireTimestamp` by exactly the charged `cur_latency` in one shot, every
single call leaves `currentCycle_` and `retireTimestamp` no smaller than
before, and across any sequence of calls `currentCycle_` is
non-decreasing.  (The draining branch is modelled from the spec, see
`drainStep`.) -/
theorem monotonic_time (p : RobParams) (table : List (String × ℚ)) (oracle : ℤ → ℚ)
    (hT : 0 ≤ p.min_latency_threshold)
    (htab : ∀ e ∈ table, (0 : ℚ) ≤ e.2)
    (hadj : ∀ e ∈ p.instruction_latency_adjustment, (0 : ℚ) ≤ e.2) :
    (∀ st ins, ins.address ≠ 0 → st.cur_latency = 0 →
        ((canRetire p table oracle st ins).2.1).currentCycle_
            = st.currentCycle_ + ((canRetire p table oracle st ins).2.1).cur_latency
          ∧ ((canRetire p table oracle st ins).2.2).retireTimestamp
            = ins.retireTimestamp + ((canRetire p table oracle st ins).2.1).cur_latency)
    ∧ (∀ st ins, st.currentCycle_ ≤ ((canRetire p table oracle st ins).2.1).currentCycle_
          ∧ ins.retireTimestamp ≤ ((canRetire p table oracle st ins).2.2).retireTimestamp)
    ∧ (∀ st inss, st.currentCycle_ ≤ (runEngine p table oracle st inss).currentCycle_) := by
  have hlat : ∀ ins, 0 ≤ chargedLatency p table oracle ins := fun ins =>
    hT.trans (chargedLatency_ge p table oracle ins htab hadj)
  have step : ∀ st ins, st.currentCycle_ ≤ ((canRetire p table oracle st ins).2.1).currentCycle_
      ∧ ins.retireTimestamp ≤ ((canRetire p table oracle st ins).2.2).retireTimestamp := by
    intro st ins
    by_cases haddr : ins.address = 0
    · simp [canRetire, haddr]
    · by_cases hcl : st.cur_latency = 0
      · rw [canRetire_charging p table oracle st ins haddr hcl]
        exact ⟨le_add_of_nonneg_right (hlat ins), le_add_of_nonneg_right (hlat ins)⟩
      · simp [canRetire, haddr, hcl, drainStep]
  refine ⟨fun st ins haddr hcl => ?_, step, fun st inss => ?_⟩
  · rw [canRetire_charging p table oracle st ins haddr hcl]
    exact ⟨rfl, rfl⟩
  · induction inss generalizing st with
    | nil => exact le_refl _
    | cons i l ih =>
      exact le_trans (step st i).1 (ih ((canRetire p table oracle st i).2.1))

/-- Witness for C4 on a concrete two-instruction run. -/
theorem monotonic_time_witness :
    ((0 : ℤ) ≤ 10 ∧ (⟨5, "x", 0⟩ : InstructionGroup).address ≠ 0)
    ∧ ((canRetire ⟨1, 10, [], 1⟩ [] (fun _ => 0) ⟨0, 0, 0, 0⟩ ⟨5, "x", 0⟩).2.1).currentCycle_
        = 0 + ((canRetire ⟨1, 10, [], 1⟩ [] (fun _ => 0) ⟨0, 0, 0, 0⟩ ⟨5, "x", 0⟩).2.1).cur_latency
    ∧ (0 : ℤ) ≤ (runEngine ⟨1, 10, [], 1⟩ [] (fun _ => 0) ⟨0, 0, 0, 0⟩
        [⟨5, "x", 0⟩, ⟨5, "y", 3⟩]).currentCycle_
    ∧ (runEngine ⟨1, 10, [], 1⟩ [] (fun _ => 0) ⟨0, 0, 0, 0⟩
        [⟨5, "x", 0⟩, ⟨5, "y", 3⟩]).currentCycle_ = 10 :=
  ⟨⟨by decide, by decide⟩,
    ((monotonic_time ⟨1, 10, [], 1⟩ [] (fun _ => 0) (by decide) (by simp) (by simp)).1
      ⟨0, 0, 0, 0⟩ ⟨5, "x", 0⟩ (by decide) rfl).1,
    (monotonic_time ⟨1, 10, [], 1⟩ [] (fun _ => 0) (by decide) (by simp) (by simp)).2.2
      ⟨0, 0, 0, 0⟩ [⟨5, "x", 0⟩, ⟨5, "y", 3⟩],
    by with_unfolding_all decide⟩

/-! ### Claim C5: bypass purity -/

/-- C5: for an instruction with `address = 0`, `canRetire` returns true
on the first call and leaves the whole engine state and the instruction
untouched. -/
theorem bypass_purity (p : RobParams) (table : List (String × ℚ)) (oracle : ℤ → ℚ)
    (st : RobState) (ins : InstructionGroup) (h : ins.address = 0) :
    canRetire p table oracle st ins = (true, st, ins) := by
  simp [canRetire, h]

/-- Witness for C5 at a concrete non-memory instruction. -/
theorem bypass_purity_witness :
    (⟨0, "nop", 7⟩ : InstructionGroup).address = 0
    ∧ canRetire ⟨1, 10, [], 1⟩ [] (fun _ => 0) ⟨0, 1, 2, 3⟩ ⟨0, "nop", 7⟩
        = (true, ⟨0, 1, 2, 3⟩, ⟨0, "nop", 7⟩) :=
  ⟨by decide,
    bypass_purity ⟨1, 10, [], 1⟩ [] (fun _ => 0) ⟨0, 1, 2, 3⟩ ⟨0, "nop", 7⟩ (by decide)⟩

/-! ### Claim C6: the calibration ratio -/

/-- C6: when both traces have non-zero mean latency,
`calculate_calibration_params` sets the base latency multiplier to
`target_ratio / (candidate mean / reference mean)`. -/
theorem calibration_ratio (gem5 cxl : List MemoryAccess) (target_ratio : ℚ)
    (h1 : meanLatency gem5 ≠ 0) (h2 : meanLatency cxl ≠ 0) :
    (calculate_calibration_params gem5 cxl target_ratio).base_latency_multiplier
      = target_ratio / (meanLatency cxl / meanLatency gem5) := by
  simp [calculate_calibration_params, h1, h2]

/-- Witness for C6: reference mean 100, candidate mean 50 and target
ratio 1 give multiplier 2. -/
theorem calibration_ratio_witness :
    (meanLatency [⟨0, 100, 1, "nop", 0, "l"⟩] ≠ 0
        ∧ meanLatency [⟨0, 50, 2, "nop", 0, "l"⟩] ≠ 0)
    ∧ (calculate_calibration_params [⟨0, 100, 1, "nop", 0, "l"⟩]
          [⟨0, 50, 2, "nop", 0, "l"⟩] 1).base_latency_multiplier
        = 1 / (meanLatency [⟨0, 50, 2, "nop", 0, "l"⟩]
            / meanLatency [⟨0, 100, 1, "nop", 0, "l"⟩])
    ∧ (calculate_calibration_params [⟨0, 100, 1, "nop", 0, "l"⟩]
          [⟨0, 50, 2, "nop", 0, "l"⟩] 1).base_latency_multiplier = 2 :=
  ⟨⟨by with_unfolding_all decide, by with_unfolding_all decide⟩,
    calibration_ratio [⟨0, 100, 1, "nop", 0, "l"⟩] [⟨0, 50, 2, "nop", 0, "l"⟩] 1
      (by with_unfolding_all decide) (by with_unfolding_all decide),
    by with_unfolding_all decide⟩

/-! ### Claim C10: degenerate traces fall back to the defaults -/

/-- C10: if either trace has zero mean latency (in particular when it
produced no memory accesses), `calculate_calibration_params` returns the
default `CalibrationParams`, for every requested target ratio. -/
theorem degenerate_default (gem5 cxl : List MemoryAccess) (target_ratio : ℚ)
    (h : meanLatency gem5 = 0 ∨ meanLatency cxl = 0) :
    calculate_calibration_params gem5 cxl target_ratio = defaultCalibrationParams := by
  simp [calculate_calibration_params, h]

/-- Witness for C10: empty traces and an arbitrary target ratio 7 yield
the default parameters, whose fields are the neutral values. -/
theorem degenerate_default_witness :
    meanLatency [] = 0
    ∧ calculate_calibration_params [] [] 7 = defaultCalibrationParams
    ∧ defaultCalibrationParams
        = ⟨1, 1, [], 10, 1⟩ :=
  ⟨by with_unfolding_all decide,
    degenerate_default [] [] 7 (Or.inl (by with_unfolding_all decide)),
    by decide⟩

/-! ### Claim C9: trace pairing -/

/-- The inductive correspondence between the parser and the amended
pairing count, threading the pending fetch (parser) against its address
(count). -/
theorem parseAux_spec (lines : List String) :
    ∀ (pend : Option PendingFetch) (accs : List MemoryAccess),
      parseAux pend lines = some accs →
      accs.length = pairCountAux (pend.map PendingFetch.address) lines
        ∧ ∀ a ∈ accs, a.address ≠ 0 := by
  induction lines with
  | nil =>
    intro pend accs h
    simp only [parseAux, Option.some_inj] at h
    subst h
    simp [pairCountAux]
  | cons l ls ih =>
    intro pend accs h
    by_cases hf : l.trim.startsWith "O3PipeView:fetch:" = true
    · by_cases h7 : (splitMax7 l.trim).length ≥ 7
      · simp only [parseAux, pairCountAux, hf, h7, if_true, if_pos, if_false,
          Bool.false_eq_true] at h ⊢
        cases h2 : pyInt? ((splitMax7 l.trim).getD 2 "") with
        | none =>
          simp only [h2] at h
          exact Option.noConfusion h
        | some ft =>
          cases h3 : parseAddr ((splitMax7 l.trim).getD 3 "") with
          | none =>
            simp only [h2, h3] at h
            exact Option.noConfusion h
          | some a =>
            cases h5 : pyInt? ((splitMax7 l.trim).getD 5 "") with
            | none =>
              simp only [h2, h3, h5] at h
              exact Option.noConfusion h
            | some cc =>
              simp only [h2, h3, h5] at h ⊢
              exact ih (some ⟨ft, a, ((splitMax7 l.trim).getD 6 "").trim, cc⟩) accs h
      · simp only [parseAux, pairCountAux, hf, h7, if_true, if_neg, if_false,
          Bool.false_eq_true] at h ⊢
        exact ih pend accs h
    · cases pend with
      | none =>
        simp only [parseAux, pairCountAux, hf, if_false, Bool.false_eq_true] at h ⊢
        exact ih none accs h
      | some pd =>
        by_cases hr : l.trim.startsWith "O3PipeView:retire:" = true
        · by_cases h4 : (l.trim.splitOn ":").length ≥ 4
          · simp only [parseAux, pairCountAux, hf, hr, h4, if_true, if_pos, if_false,
              Bool.false_eq_true, Option.map_some'] at h ⊢
            cases hrt : pyInt? ((l.trim.splitOn ":").getD 2 "") with
            | none =>
              simp only [hrt] at h
              exact Option.noConfusion h
            | some rt =>
              simp only [hrt] at h ⊢
              by_cases ha : pd.address ≠ 0
              · rw [if_pos ha] at h
                rw [if_pos ha]
                cases hrest : parseAux none ls with
                | none =>
                  simp only [hrest, Option.map_none'] at h
                  exact Option.noConfusion h
                | some rest =>
                  simp only [hrest, Option.map_some', Option.some_inj] at h
                  subst h
                  obtain ⟨ihlen, ihmem⟩ := ih none rest hrest
                  simp only [Option.map_none'] at ihlen
                  refine ⟨?_, ?_⟩
                  · simp only [List.length_cons, ihlen]
                    omega
                  · intro x hx
                    rcases List.mem_cons.mp hx with rfl | hx'
                    · exact ha
                    · exact ihmem x hx'
              · rw [if_neg ha] at h
                rw [if_neg ha]
                obtain ⟨ihlen, ihmem⟩ := ih none accs h
                exact ⟨by simpa using ihlen, ihmem⟩
          · simp only [parseAux, pairCountAux, hf, hr, h4, if_true, if_neg, if_false,
            Bool.false_eq_true] at h ⊢
            exact ih none accs h
        · simp only [parseAux, pairCountAux, hf, hr, if_false, Bool.false_eq_true] at h ⊢
          exact ih (some pd) accs h

set_option maxRecDepth 8000 in
/-- C9 counterexample: in the trace
`fetch(ld_a, 0x10); fetch(ld_b, 0x20); retire(9)`, both fetch lines are
memory fetch lines followed in program order by a retire line, so the
claim predicts two records, but the second fetch overwrites the pending
first one and the parser emits a single record (for `ld_b`). -/
theorem trace_pairing_cex :
    claimPairedCount ["O3PipeView:fetch:1:0x10:0:5:ld_a",
        "O3PipeView:fetch:2:0x20:0:5:ld_b", "O3PipeView:retire:9:load:x"] = 2
    ∧ parse_trace_file ["O3PipeView:fetch:1:0x10:0:5:ld_a",
        "O3PipeView:fetch:2:0x20:0:5:ld_b", "O3PipeView:retire:9:load:x"]
        = some [⟨2, 9, 32, "ld_b", 5, "load"⟩]
    ∧ ([(⟨2, 9, 32, "ld_b", 5, "load"⟩ : MemoryAccess)]).length ≠ 2 := by
  refine ⟨?_, ?_, ?_⟩ <;> with_unfolding_all decide

/-- C9 amended: the parser produces one record per well-formed retire
line that consumes the most recent pending fetch with non-zero address (a
later fetch line replaces the pending fetch, so an unconsumed fetch is
dropped even if a retire line appears later); records never have address
zero and each record's latency is its retire timestamp minus its fetch
timestamp. -/
theorem trace_pairing (lines : List String) (accs : List MemoryAccess)
    (h : parse_trace_file lines = some accs) :
    accs.length = pairCountAux none lines
      ∧ ∀ a ∈ accs, a.address ≠ 0
          ∧ a.latency = a.retire_timestamp - a.fetch_timestamp := by
  obtain ⟨hlen, hmem⟩ := parseAux_spec lines none accs h
  exact ⟨hlen, fun a ha => ⟨hmem a ha, rfl⟩⟩

set_option maxRecDepth 8000 in
/-- Witness for C9's amended statement on a concrete trace. -/
theorem trace_pairing_witness :
    parse_trace_file ["O3PipeView:fetch:1:0x10:0:5:ld_a",
        "O3PipeView:fetch:2:0x20:0:5:ld_b", "O3PipeView:retire:9:load:x"]
        = some [⟨2, 9, 32, "ld_b", 5, "load"⟩]
    ∧ ([(⟨2, 9, 32, "ld_b", 5, "load"⟩ : MemoryAccess)].length
          = pairCountAux none ["O3PipeView:fetch:1:0x10:0:5:ld_a",
              "O3PipeView:fetch:2:0x20:0:5:ld_b", "O3PipeView:retire:9:load:x"]
        ∧ ∀ a ∈ [(⟨2, 9, 32, "ld_b", 5, "load"⟩ : MemoryAccess)], a.address ≠ 0
            ∧ a.latency = a.retire_timestamp - a.fetch_timestamp) :=
  ⟨by with_unfolding_all decide,
    trace_pairing _ _ (by with_unfolding_all decide)⟩

/-! ### Claim C7: application is not atomic -/

set_option maxRecDepth 8000 in
/-- C7 counterexample: on a rob.cpp content that contains the stall line
but not the threshold clamp, `apply_calibration_to_rob` applies the stall
multiplier while the minimum latency threshold (42) and base multiplier
(2.0) are silently skipped — a proper subset of the snapshot takes
effect, so application is not all-or-nothing. -/
theorem atomic_application_cex :
    apply_calibration_to_rob ⟨some 2, none, none, some 42, some (1/2)⟩
        "stallCount_ += cur_latency;"
        ≠ some "stallCount_ += cur_latency;"
    ∧ apply_calibration_to_rob ⟨some 2, none, none, some 42, some (1/2)⟩
        "stallCount_ += cur_latency;"
        = some "stallCount_ += static_cast<long>(cur_latency * 0.500000); // Calibrated stall multiplier"
    ∧ occursB "42"
        "stallCount_ += static_cast<long>(cur_latency * 0.500000); // Calibrated stall multiplier"
        = false
    ∧ occursB "2.000000"
        "stallCount_ += static_cast<long>(cur_latency * 0.500000); // Calibrated stall multiplier"
        = false := by
  refine ⟨?_, ?_, ?_, ?_⟩ <;> with_unfolding_all decide

/-- C7 amended: the four parameter substitutions are applied
independently, each guarded by its own pattern search, so a parameter
whose pattern is absent from the file is skipped while the others still
take effect (partial application is possible); only when no pattern
matches at all is the content guaranteed unchanged. -/
theorem guarded_substitutions (cfg : CalibrationConfig) (s : String) :
    (searchB (matchAt1 (cfgMinThreshold cfg)) s.data = false →
        step1 (cfgMinThreshold cfg) s.data = some s.data)
    ∧ (searchB (matchAt2 (cfgBaseMultiplier cfg)) s.data = false →
        step2 (cfgBaseMultiplier cfg) s.data = s.data)
    ∧ (searchB (matchAt3 (cfgStallMultiplier cfg)) s.data = false →
        step3 (cfgStallMultiplier cfg) s.data = s.data)
    ∧ (cfgInstrAdjustments cfg = [] ∨
          searchB (matchAt4 (cfgInstrAdjustments cfg)) s.data = false →
        step4 (cfgInstrAdjustments cfg) s.data = s.data)
    ∧ (searchB (matchAt1 (cfgMinThreshold cfg)) s.data = false ∧
          searchB (matchAt2 (cfgBaseMultiplier cfg)) s.data = false ∧
          searchB (matchAt3 (cfgStallMultiplier cfg)) s.data = false ∧
          (cfgInstrAdjustments cfg = [] ∨
            searchB (matchAt4 (cfgInstrAdjustments cfg)) s.data = false) →
        apply_calibration_to_rob cfg s = some s) := by
  have h1 : ∀ h : searchB (matchAt1 (cfgMinThreshold cfg)) s.data = false,
      step1 (cfgMinThreshold cfg) s.data = some s.data := fun h => by
    simp [step1, h]
  have h2 : ∀ h : searchB (matchAt2 (cfgBaseMultiplier cfg)) s.data = false,
      step2 (cfgBaseMultiplier cfg) s.data = s.data := fun h => by
    simp [step2, h]
  have h3 : ∀ h : searchB (matchAt3 (cfgStallMultiplier cfg)) s.data = false,
      step3 (cfgStallMultiplier cfg) s.data = s.data := fun h => by
    simp [step3, h]
  have h4 : ∀ _ : cfgInstrAdjustments cfg = [] ∨
        searchB (matchAt4 (cfgInstrAdjustments cfg)) s.data = false,
      step4 (cfgInstrAdjustments cfg) s.data = s.data := by
    rintro (he | hs)
    · simp [step4, he]
    · by_cases he : (cfgInstrAdjustments cfg).isEmpty <;> simp [step4, he, hs]
  refine ⟨h1, h2, h3, h4, fun ⟨a1, a2, a3, a4⟩ => ?_⟩
  rw [apply_calibration_to_rob, h1 a1]
  simp only [h2 a2, h3 a3, h4 a4]

/-- Witness for C7's amended statement: a content matching none of the
patterns passes through unchanged. -/
theorem guarded_substitutions_witness :
    searchB (matchAt1 (cfgMinThreshold ⟨none, none, none, none, none⟩))
        "hello".data = false
    ∧ apply_calibration_to_rob ⟨none, none, none, none, none⟩ "hello" = some "hello" :=
  ⟨by with_unfolding_all decide,
    (guarded_substitutions ⟨none, none, none, none, none⟩ "hello").2.2.2.2
      ⟨by with_unfolding_all decide, by with_unfolding_all decide,
        by with_unfolding_all decide, Or.inl rfl⟩⟩

/-! ### Claim C8: missing configuration keys default to neutral values -/

/-- C8: every configuration key the calibration layer reads is defaulted
when missing — multiplier to 1.0, threshold to 10, the adjustment map to
empty, stall multiplier to 1.0 — and with all keys missing the values
used coincide field by field with the default `CalibrationParams`
snapshot, so the engine runs with no calibration applied. -/
theorem missing_keys_default (c : CalibrationConfig) :
    (c.base_latency_multiplier = none → cfgBaseMultiplier c = 1)
    ∧ (c.min_latency_threshold = none → cfgMinThreshold c = 10)
    ∧ (c.instruction_latency_adjustment = none → cfgInstrAdjustments c = [])
    ∧ (c.stall_multiplier = none → cfgStallMultiplier c = 1)
    ∧ (c.base_latency_multiplier = none ∧ c.min_latency_threshold = none
        ∧ c.instruction_latency_adjustment = none ∧ c.stall_multiplier = none →
        cfgBaseMultiplier c = defaultCalibrationParams.base_latency_multiplier
        ∧ cfgMinThreshold c = defaultCalibrationParams.min_latency_threshold
        ∧ cfgInstrAdjustments c = defaultCalibrationParams.instruction_latency_adjustment
        ∧ cfgStallMultiplier c = defaultCalibrationParams.stall_multiplier) := by
  refine ⟨fun h => ?_, fun h => ?_, fun h => ?_, fun h => ?_, fun ⟨hb, hm, hi, hs⟩ => ?_⟩
  · simp [cfgBaseMultiplier, h]
  · simp [cfgMinThreshold, h]
  · simp [cfgInstrAdjustments, h]
  · simp [cfgStallMultiplier, h]
  · exact ⟨by simp [cfgBaseMultiplier, hb, defaultCalibrationParams],
      by simp [cfgMinThreshold, hm, defaultCalibrationParams],
      by simp [cfgInstrAdjustments, hi, defaultCalibrationParams],
      by simp [cfgStallMultiplier, hs, defaultCalibrationParams]⟩

/-- Witness for C8 on the fully-empty configuration. -/
theorem missing_keys_default_witness :
    (⟨none, none, none, none, none⟩ : CalibrationConfig).base_latency_multiplier = none
    ∧ cfgBaseMultiplier ⟨none, none, none, none, none⟩ = 1
    ∧ (cfgBaseMultiplier ⟨none, none, none, none, none⟩
          = defaultCalibrationParams.base_latency_multiplier
        ∧ cfgMinThreshold ⟨none, none, none, none, none⟩
          = defaultCalibrationParams.min_latency_threshold
        ∧ cfgInstrAdjustments ⟨none, none, none, none, none⟩
          = defaultCalibrationParams.instruction_latency_adjustment
        ∧ cfgStallMultiplier ⟨none, none, none, none, none⟩
          = defaultCalibrationParams.stall_multiplier) :=
  ⟨rfl,
    (missing_keys_default ⟨none, none, none, none, none⟩).1 rfl,
    (missing_keys_default ⟨none, none, none, none, none⟩).2.2.2.2 ⟨rfl, rfl, rfl, rfl⟩⟩

end CXLMemSim
